import Mathlib

/-!
Verification of the Server Manager / Router of SupaMCP's Python binding
(`src/python/kmcp/kmcp_binding.py`, `src/python/kmcp/kmcp_tools/tool_executor.py`).

The Python file is a ctypes wrapper over a native library (`kmcp.dll`) that is
not part of this source tree; the wrapper functions (`add_server`,
`select_tool_server`, `reconnect_server`, `disconnect_servers`, ...) are
embedded from the Python source, while the native server-manager semantics
(capability index, config validation, retry loop, profile activation) are
modelled from the spec, as marked in each doc comment.
-/

namespace SupaMCP

/-- Modelled from the spec (§3 Connection states, missing native code):
`Unconnected → Connecting → Connected → Disconnected/Failed`. -/
inductive ConnState where
  | Unconnected
  | Connecting
  | Connected
  | Disconnected
  | Failed
deriving DecidableEq, Repr

/-- Modelled from the spec (§3 ServerConfig, missing native code), field layout
matching the ctypes `KMCPBinding.ServerConfig` structure
(kmcp_binding.py lines 266-278) where unpopulated string fields are the empty
string (see `encode_or_empty`); `capabilities` is the spec's set of tags,
kept as an ordered list. -/
structure ServerConfig where
  name : String
  command : String
  args : List String
  url : String
  api_key : String
  env : List String
  capabilities : List String
  is_http : Bool
deriving DecidableEq, Repr

/-- Embedded from `KMCPBinding._create_server_config.encode_or_empty`
(kmcp_binding.py lines 654-657): `None` becomes the empty string. -/
def encode_or_empty : Option String → String
  | none => ""
  | some s => s

/-- The dictionary argument accepted by `add_server` (kmcp_binding.py),
with the optional fields the Python dict may omit. -/
structure ConfigDict where
  name : Option String
  command : Option String
  args : List String
  url : Option String
  api_key : Option String
  env : List String
  capabilities : List String
  is_http : Bool
deriving DecidableEq, Repr

/-- Embedded from `KMCPBinding._create_server_config` (kmcp_binding.py lines
632-671): builds the ctypes struct from the dict, mapping missing string
fields to the empty string. Capability tags pass through to the native side
(spec §6 configuration document). -/
def mkServerConfig (d : ConfigDict) : ServerConfig :=
  { name := encode_or_empty d.name
    command := encode_or_empty d.command
    args := d.args
    url := encode_or_empty d.url
    api_key := encode_or_empty d.api_key
    env := d.env
    capabilities := d.capabilities
    is_http := d.is_http }

/-- Modelled from the spec (§3 Connection, missing native code): a mutable
runtime object bound 1:1 to a ServerConfig. -/
structure Connection where
  config : ServerConfig
  state : ConnState
deriving DecidableEq, Repr

/-- Modelled from the spec (§3 ServerManager, missing native code): an ordered,
index-addressable list of Connections; order is insertion order. -/
structure ServerManager where
  connections : List Connection
deriving DecidableEq, Repr

/-- Embedded from `KMCPBinding.get_server_count` / spec §4.3 `getCount`. -/
def ServerManager.getCount (m : ServerManager) : Nat :=
  m.connections.length

/-- Names of the connections in insertion order. -/
def ServerManager.names (m : ServerManager) : List String :=
  m.connections.map (fun c => c.config.name)

/-- Modelled from the spec (§3): a config is valid when exactly one of the
process-spawn field (`command`) or the URL field is populated (non-empty,
matching `encode_or_empty`'s encoding of a missing field). -/
def validConfig (c : ServerConfig) : Bool :=
  xor (c.command ≠ "") (c.url ≠ "")

/-- `AddError` of spec §4.3 (missing native code). -/
inductive AddError where
  | DuplicateName
  | InvalidConfig
deriving DecidableEq, Repr

/-- Modelled from the spec (§4.3 `addServer`, missing native code): validates
the config (duplicate name, §3 exactly-one-of invariant), appends a new
unconnected Connection, returns its stable index (the previous count, so it
was not previously in use). -/
def ServerManager.addServer (m : ServerManager) (c : ServerConfig) :
    Except AddError (Nat × ServerManager) :=
  if c.name ∈ m.names then .error .DuplicateName
  else if validConfig c = false then .error .InvalidConfig
  else .ok (m.getCount, ⟨m.connections ++ [⟨c, .Unconnected⟩]⟩)

/-- Folds a list of configs through `addServer`, a failed add leaving the
manager unchanged (the Python caller sees a raised `RuntimeError` and keeps
its handle). -/
def applyAdds (m : ServerManager) : List ServerConfig → ServerManager
  | [] => m
  | c :: rest =>
    match m.addServer c with
    | .ok r => applyAdds r.2 rest
    | .error _ => applyAdds m rest

/-- First index in a list satisfying a predicate (insertion order). -/
def findIdxOpt (p : α → Bool) : List α → Option Nat
  | [] => none
  | a :: l => if p a then some 0 else (findIdxOpt p l).map (fun i => i + 1)

/-- A connection declares a capability tag. -/
def declares (c : Connection) (tag : String) : Bool :=
  tag ∈ c.config.capabilities

/-- Modelled from the spec (§3 CapabilityIndex tie-break, missing native
code): first Connection in insertion order whose capability set contains the
requested tag AND whose state is `Connected`; if none are `Connected`, fall
back to the first matching regardless of state. -/
def lookupTag (conns : List Connection) (tag : String) : Option Nat :=
  match findIdxOpt (fun c => declares c tag && (c.state == ConnState.Connected)) conns with
  | some i => some i
  | none => findIdxOpt (fun c => declares c tag) conns

/-- `NoServerError` of spec §4.3 (missing native code). -/
inductive SelectError where
  | NoServerError
deriving DecidableEq, Repr

/-- Modelled from the spec (§4.3 `selectForTool`, missing native code):
delegates to the Capability Index with the tool name as tag. -/
def ServerManager.selectForTool (m : ServerManager) (tool : String) :
    Except SelectError Nat :=
  match lookupTag m.connections tool with
  | some i => .ok i
  | none => .error .NoServerError

/-- The native `kmcp_server_select_tool` return convention (modelled from the
spec together with the binding's prototype, kmcp_binding.py lines 227-231):
a non-negative index on success, a negative error code on failure. -/
def kmcp_server_select_tool (m : ServerManager) (tool : String) : Int :=
  match m.selectForTool tool with
  | .ok i => (i : Int)
  | .error _ => -1

/-- Embedded from `KMCPBinding.select_tool_server` (kmcp_binding.py lines
526-542): raises `RuntimeError` when the native result is negative, returns
the index otherwise. -/
def select_tool_server (m : ServerManager) (tool : String) : Except String Int :=
  let result := kmcp_server_select_tool m tool
  if result < 0 then
    .error ("Failed to select server for tool " ++ tool ++ " with error code " ++ toString result)
  else
    .ok result

/-- A stateful rendering of `select_tool_server`: the pair of the result and
the manager state after the call. Selection mutates nothing (spec §4.3
algorithmic notes), so the state after is the state before. -/
def selectForToolRun (m : ServerManager) (tool : String) :
    Except String Int × ServerManager :=
  (select_tool_server m tool, m)

/-- Replace the state of the connection at a position, leaving its config and
every other connection untouched. -/
def setStateList : List Connection → Nat → ConnState → List Connection
  | [], _, _ => []
  | c :: rest, 0, s => ⟨c.config, s⟩ :: rest
  | c :: rest, n + 1, s => c :: setStateList rest n s

/-- Replace the state of the connection at `idx`, leaving its config and every
other connection untouched. -/
def ServerManager.setState (m : ServerManager) (idx : Nat) (s : ConnState) : ServerManager :=
  ⟨setStateList m.connections idx s⟩

/-- `ReconnectError` of spec §4.3 (missing native code). -/
inductive ReconnectError where
  | OutOfAttempts
  | InvalidIndex
deriving DecidableEq, Repr

/-- Trace of one bounded retry loop: how many connect attempts were made,
the sleep durations between consecutive attempts, and whether one of the
attempts succeeded. -/
structure RetryTrace where
  attempts : Nat
  sleeps : List Nat
  success : Bool
deriving DecidableEq, Repr

/-- Modelled from the spec (§4.3 `reconnect` retry loop, missing native
code): attempt `connect()` up to the remaining budget, sleeping a constant
`interval` between attempts. The transport is abstracted as an oracle giving
the outcome of the k-th attempt. -/
def retryLoop (oracle : Nat → Bool) (interval : Nat) : Nat → Nat → RetryTrace
  | 0, _ => ⟨0, [], false⟩
  | budget + 1, k =>
    if oracle k then ⟨1, [], true⟩
    else if budget = 0 then ⟨1, [], false⟩
    else
      let t := retryLoop oracle interval budget (k + 1)
      ⟨t.attempts + 1, interval :: t.sleeps, t.success⟩

/-- Outcome of a `reconnect` call: the result value, the manager state after
the call, and the retry trace. -/
structure ReconnectOutcome where
  result : Except ReconnectError Unit
  manager : ServerManager
  trace : RetryTrace
deriving Repr

/-- Modelled from the spec (§4.3 `reconnect`, missing native code): validates
the index, disconnects, then runs the bounded retry loop; on success the
connection ends `Connected`, after exhausting the budget it ends `Failed`
and the call fails with `OutOfAttempts`; no further retry happens beyond the
bound (the trace records every attempt made). -/
def ServerManager.reconnect (m : ServerManager) (oracle : Nat → Bool)
    (idx maxAttempts interval : Nat) : ReconnectOutcome :=
  match m.connections[idx]? with
  | none => ⟨.error .InvalidIndex, m, ⟨0, [], false⟩⟩
  | some _ =>
    let m1 := m.setState idx .Disconnected
    let t := retryLoop oracle interval maxAttempts 0
    if t.success then ⟨.ok (), m1.setState idx .Connected, t⟩
    else ⟨.error .OutOfAttempts, m1.setState idx .Failed, t⟩

/-- Modelled from the spec (§4.3 `disconnectAll`, missing native code,
wrapped by `KMCPBinding.disconnect_servers`, kmcp_binding.py lines 515-524):
unconditionally disconnects every Connection; a per-connection teardown error
(abstracted as an oracle from index to an optional error message) is only
collected as a log line, never raised, and every connection still transitions
to `Disconnected`. The function is total: there is no failure outcome. -/
def disconnectAll (m : ServerManager) (teardownErr : Nat → Option String) :
    ServerManager × List String :=
  (⟨m.connections.map (fun c => ⟨c.config, .Disconnected⟩)⟩,
   (List.range m.getCount).filterMap teardownErr)

/-- Modelled from the spec (§4.4 ProfileManager, missing native code: the
profile functions the tests call do not exist in the binding): a mapping from
profile name to its ordered config list, plus the active profile name. -/
structure ProfileManager where
  profiles : List (String × List ServerConfig)
  activeProfile : Option String
deriving DecidableEq, Repr

/-- The profile-manager / server-manager pair that profile activation acts
on (spec §2 data flow: Profile Manager → Server Manager). -/
structure ManagedSystem where
  pm : ProfileManager
  sm : ServerManager
deriving DecidableEq, Repr

/-- `ActivateError` of spec §4.4 (missing native code). -/
inductive ActivateError where
  | UnknownProfile
  | ConfigValidation
deriving DecidableEq, Repr

/-- Look up a profile's config list by name. -/
def ProfileManager.lookupProfile (p : ProfileManager) (name : String) :
    Option (List ServerConfig) :=
  (p.profiles.find? (fun e => e.1 == name)).map (fun e => e.2)

/-- Modelled from the spec (§3 + §6: load-time schema validation of a config
set): every config satisfies the §3 exactly-one-of invariant and no two
configs share a name. -/
def validConfigList (cfgs : List ServerConfig) : Bool :=
  cfgs.all validConfig && (cfgs.map (fun c => c.name)).Nodup

/-- Fresh unconnected connections for a config list (spec §3: Connections are
created when a config is added). -/
def mkConnections (cfgs : List ServerConfig) : List Connection :=
  cfgs.map (fun c => ⟨c, .Unconnected⟩)

/-- Modelled from the spec (§4.4 `activateProfile`, missing native code):
atomically swaps the Server Manager's connection set to the named profile's
configs; on failure (unknown profile or config validation) the previous
state remains in force, returned unchanged alongside the error. The
capability index is derived (`lookupTag` is a pure function of the
connection list), so the swap rebuilds it by construction. -/
def activateProfile (s : ManagedSystem) (name : String) :
    Except ActivateError Unit × ManagedSystem :=
  match s.pm.lookupProfile name with
  | none => (.error .UnknownProfile, s)
  | some cfgs =>
    if validConfigList cfgs then
      (.ok (), ⟨⟨s.pm.profiles, some name⟩, ⟨mkConnections cfgs⟩⟩)
    else
      (.error .ConfigValidation, s)

/-- `getActiveProfile` of spec §4.4. -/
def getActiveProfile (s : ManagedSystem) : Option String :=
  s.pm.activeProfile

/-- A Python value as far as the tool executor needs it: a string or a dict
with string keys. -/
inductive PyValue where
  | str (s : String)
  | dict (entries : List (String × PyValue))

/-- A Python dict with string keys, as returned by `KMCPBinding.call_tool`. -/
def PyDict := List (String × PyValue)

/-- Embedded from `ToolExecutor.execute_tool` (tool_executor.py lines 24-38):
`try: result = kmcp.call_tool(...); return json.loads(result) except
Exception as e: return ...error... str(e)...`. The underlying call and the
parse step are abstracted as parameters (`callOutcome` is what
`kmcp.call_tool` does on this input, `loads` is what `json.loads` does to its
result); an exception from either is modelled as `.error`. The function is
total: every exception is caught and turned into a dict with an "error" key
holding the exception message. -/
def execute_tool (callOutcome : Except String PyDict)
    (loads : PyDict → Except String PyDict) : PyDict :=
  match callOutcome with
  | .error e => [("error", .str e)]
  | .ok d =>
    match loads d with
    | .error e => [("error", .str e)]
    | .ok v => v

/-- Embedded from the composition in the source: `KMCPBinding.call_tool`
returns an already-parsed dict (kmcp_binding.py line 404 and 413), and
`json.loads` applied to a dict raises `TypeError` — its argument must be a
string. -/
def json_loads_on_dict (_ : PyDict) : Except String PyDict :=
  .error "the JSON object must be str, bytes or bytearray, not dict"

/-! ### Concrete configurations used by the scenario claims and witnesses -/

/-- First scenario server: capabilities `{text}` (spec §8 scenario). -/
def cfgText : ServerConfig :=
  ⟨"alpha", "", [], "http://alpha:8080", "", [], ["text"], true⟩

/-- Second scenario server: capabilities `{text, image}`. -/
def cfgTextImage : ServerConfig :=
  ⟨"beta", "", [], "http://beta:8080", "", [], ["text", "image"], true⟩

/-- Third scenario server: capabilities `{code}`. -/
def cfgCode : ServerConfig :=
  ⟨"gamma", "", [], "http://gamma:8080", "", [], ["code"], true⟩

/-- The spec §8 scenario manager: three servers added in order with
capability sets `{text}`, `{text, image}`, `{code}`. -/
def mgr3 : ServerManager :=
  applyAdds ⟨[]⟩ [cfgText, cfgTextImage, cfgCode]

/-- A manager whose second and third connections declare "image", with only
the third `Connected` (exercises the Connected-first tie-break). -/
def mgrMixed : ServerManager :=
  ⟨[⟨cfgText, .Connected⟩, ⟨cfgTextImage, .Disconnected⟩,
    ⟨⟨"delta", "", [], "http://delta:8080", "", [], ["image"], true⟩, .Connected⟩]⟩

/-- A fresh valid config used by witnesses. -/
def cfgFresh : ServerConfig :=
  ⟨"omega", "", [], "http://omega:8080", "", [], ["text"], true⟩

/-- An invalid config: neither the command nor the URL field is populated. -/
def cfgNeither : ServerConfig :=
  ⟨"bad-neither", "", [], "", "", [], [], false⟩

/-- An invalid config: both the command and the URL field are populated. -/
def cfgBoth : ServerConfig :=
  ⟨"bad-both", "/usr/bin/server", [], "http://both:8080", "", [], [], false⟩

/-- A concrete profile-manager / server-manager pair: one "prod" profile,
currently active, and its single connection; plus a "broken" profile whose
config list fails validation. -/
def sysEx : ManagedSystem :=
  ⟨⟨[("prod", [cfgFresh]), ("broken", [cfgNeither])], some "prod"⟩,
   ⟨[⟨cfgFresh, .Unconnected⟩]⟩⟩

/-- A one-connection manager used by the reconnect witness. -/
def mgr1 : ServerManager :=
  ⟨[⟨cfgFresh, .Connected⟩]⟩

/-! ### Helper lemmas on `findIdxOpt` and `lookupTag` -/

theorem findIdxOpt_eq_none_iff (p : α → Bool) (l : List α) :
    findIdxOpt p l = none ↔ ∀ a ∈ l, p a = false := by
  induction l with
  | nil => simp [findIdxOpt]
  | cons a l ih =>
    cases hp : p a with
    | true => simp [findIdxOpt, hp]
    | false =>
      simp only [findIdxOpt, hp, Bool.false_eq_true, if_false, Option.map_eq_none',
        List.mem_cons]
      rw [ih]
      constructor
      · intro hn b hb
        rcases hb with hb | hb
        · subst hb; exact hp
        · exact hn b hb
      · intro hall b hb
        exact hall b (Or.inr hb)

theorem findIdxOpt_eq_some_spec (p : α → Bool) (l : List α) (i : Nat)
    (h : findIdxOpt p l = some i) :
    (∃ a, l[i]? = some a ∧ p a = true) ∧
      ∀ j, j < i → ∀ b, l[j]? = some b → p b = false := by
  induction l generalizing i with
  | nil => simp [findIdxOpt] at h
  | cons a l ih =>
    cases hp : p a with
    | true =>
      simp only [findIdxOpt, hp, if_true, Option.some.injEq] at h
      subst h
      refine ⟨⟨a, by simp, hp⟩, ?_⟩
      intro j hj
      omega
    | false =>
      simp only [findIdxOpt, hp, Bool.false_eq_true, if_false, Option.map_eq_some'] at h
      obtain ⟨i0, hi0, rfl⟩ := h
      obtain ⟨⟨b, hb, hpb⟩, hmin⟩ := ih i0 hi0
      refine ⟨⟨b, by simpa using hb, hpb⟩, ?_⟩
      intro j hj c hc
      match j with
      | 0 =>
        simp only [List.getElem?_cons_zero, Option.some.injEq] at hc
        subst hc
        exact hp
      | j + 1 =>
        simp only [List.getElem?_cons_succ] at hc
        exact hmin j (by omega) c hc

theorem findIdxOpt_isSome_of_mem (p : α → Bool) (l : List α) (a : α)
    (ha : a ∈ l) (hp : p a = true) : ∃ i, findIdxOpt p l = some i := by
  induction l with
  | nil => cases ha
  | cons b l ih =>
    cases hb : p b with
    | true => exact ⟨0, by simp [findIdxOpt, hb]⟩
    | false =>
      rcases List.mem_cons.mp ha with h | h
      · subst h; rw [hp] at hb; cases hb
      · obtain ⟨i, hi⟩ := ih h
        exact ⟨i + 1, by simp [findIdxOpt, hb, hi]⟩

theorem lookupTag_eq_none_iff (conns : List Connection) (tag : String) :
    lookupTag conns tag = none ↔ ∀ c ∈ conns, declares c tag = false := by
  unfold lookupTag
  constructor
  · intro h
    cases hfst : findIdxOpt (fun c => declares c tag && (c.state == ConnState.Connected)) conns with
    | none =>
      rw [hfst] at h
      exact (findIdxOpt_eq_none_iff _ _).mp h
    | some i => rw [hfst] at h; cases h
  · intro hall
    have h1 : findIdxOpt (fun c => declares c tag && (c.state == ConnState.Connected)) conns = none := by
      rw [findIdxOpt_eq_none_iff]
      intro c hc
      simp [hall c hc]
    have h2 : findIdxOpt (fun c => declares c tag) conns = none :=
      (findIdxOpt_eq_none_iff _ _).mpr hall
    rw [h1, h2]

theorem lookupTag_some_declares (conns : List Connection) (tag : String) (i : Nat)
    (h : lookupTag conns tag = some i) :
    ∃ c, conns[i]? = some c ∧ declares c tag = true := by
  unfold lookupTag at h
  cases hfst : findIdxOpt (fun c => declares c tag && (c.state == ConnState.Connected)) conns with
  | some j =>
    rw [hfst] at h
    cases h
    obtain ⟨⟨c, hc, hpc⟩, _⟩ := findIdxOpt_eq_some_spec _ _ _ hfst
    have hdecl : declares c tag = true ∧ c.state = ConnState.Connected := by
      simpa using hpc
    exact ⟨c, hc, hdecl.1⟩
  | none =>
    rw [hfst] at h
    obtain ⟨⟨c, hc, hpc⟩, _⟩ := findIdxOpt_eq_some_spec _ _ _ h
    exact ⟨c, hc, hpc⟩

theorem lookupTag_isSome_of_declares (conns : List Connection) (tag : String)
    (c : Connection) (hc : c ∈ conns) (hd : declares c tag = true) :
    ∃ i, lookupTag conns tag = some i := by
  unfold lookupTag
  cases hfst : findIdxOpt (fun c => declares c tag && (c.state == ConnState.Connected)) conns with
  | some j => exact ⟨j, rfl⟩
  | none =>
    obtain ⟨i, hi⟩ := findIdxOpt_isSome_of_mem (fun c => declares c tag) conns c hc hd
    exact ⟨i, by rw [hi]⟩

theorem select_tool_server_of_lookup_some (m : ServerManager) (tool : String) (i : Nat)
    (h : lookupTag m.connections tool = some i) :
    select_tool_server m tool = Except.ok ((i : Int)) := by
  unfold select_tool_server kmcp_server_select_tool ServerManager.selectForTool
  rw [h]
  dsimp only
  exact if_neg (by omega)

theorem select_tool_server_of_lookup_none (m : ServerManager) (tool : String)
    (h : lookupTag m.connections tool = none) :
    select_tool_server m tool =
      Except.error ("Failed to select server for tool " ++ tool ++
        " with error code " ++ toString (-1 : Int)) := by
  unfold select_tool_server kmcp_server_select_tool ServerManager.selectForTool
  rw [h]
  dsimp only
  exact if_pos (by omega)

theorem addServer_ok_shape (m : ServerManager) (c : ServerConfig) (r : Nat × ServerManager)
    (h : m.addServer c = .ok r) :
    r.1 = m.getCount ∧ r.2.connections = m.connections ++ [⟨c, ConnState.Unconnected⟩] := by
  unfold ServerManager.addServer at h
  split at h
  · cases h
  · split at h
    · cases h
    · cases h
      exact ⟨rfl, rfl⟩

theorem applyAdds_stable_getElem (ds : List ServerConfig) (m : ServerManager) (i : Nat)
    (h : i < m.getCount) :
    (applyAdds m ds).connections[i]? = m.connections[i]? := by
  induction ds generalizing m with
  | nil => rfl
  | cons d ds ih =>
    unfold applyAdds
    cases hd : m.addServer d with
    | error e => exact ih m h
    | ok r =>
      have hs := addServer_ok_shape m d r hd
      have hcount : r.2.getCount = m.getCount + 1 := by
        simp [ServerManager.getCount, hs.2]
      rw [ih r.2 (by omega), hs.2, List.getElem?_append,
        if_pos (show i < m.connections.length from h)]

theorem addServer_ok_fresh_name (m : ServerManager) (c : ServerConfig)
    (r : Nat × ServerManager) (h : m.addServer c = .ok r) : c.name ∉ m.names := by
  intro hmem
  unfold ServerManager.addServer at h
  rw [if_pos hmem] at h
  cases h

theorem addServer_preserves_nodup (m : ServerManager) (c : ServerConfig)
    (r : Nat × ServerManager) (h : m.addServer c = .ok r)
    (hm : m.names.Nodup) : r.2.names.Nodup := by
  have hs := addServer_ok_shape m c r h
  have hname := addServer_ok_fresh_name m c r h
  have : r.2.names = m.names ++ [c.name] := by
    simp [ServerManager.names, hs.2]
  rw [this, List.nodup_append]
  refine ⟨hm, List.nodup_singleton _, ?_⟩
  intro a ha hb
  rw [List.mem_singleton] at hb
  subst hb
  exact hname ha

theorem applyAdds_nodup (cfgs : List ServerConfig) (m : ServerManager)
    (hm : m.names.Nodup) : (applyAdds m cfgs).names.Nodup := by
  induction cfgs generalizing m with
  | nil => exact hm
  | cons d ds ih =>
    unfold applyAdds
    cases hd : m.addServer d with
    | error e => exact ih m hm
    | ok r => exact ih r.2 (addServer_preserves_nodup m d r hd hm)

theorem setStateList_getElem_self (l : List Connection) (i : Nat) (s : ConnState) :
    (setStateList l i s)[i]? = (l[i]?).map (fun c => ⟨c.config, s⟩) := by
  induction l generalizing i with
  | nil => simp [setStateList]
  | cons c rest ih =>
    match i with
    | 0 => simp [setStateList]
    | n + 1 =>
      simp only [setStateList, List.getElem?_cons_succ]
      exact ih n

theorem retryLoop_attempts_le (oracle : Nat → Bool) (interval : Nat) :
    ∀ n k, (retryLoop oracle interval n k).attempts ≤ n := by
  intro n
  induction n with
  | zero => intro k; simp [retryLoop]
  | succ n ih =>
    intro k
    unfold retryLoop
    cases ho : oracle k with
    | true => simp
    | false =>
      by_cases hn : n = 0
      · rw [if_neg Bool.false_ne_true, if_pos hn]
        subst hn
        exact Nat.le_refl 1
      · rw [if_neg Bool.false_ne_true, if_neg hn]
        dsimp only
        have h1 := ih (k + 1)
        omega

theorem retryLoop_allFail (oracle : Nat → Bool) (interval : Nat)
    (hfail : ∀ k, oracle k = false) :
    ∀ n k, 1 ≤ n → retryLoop oracle interval n k =
      ⟨n, List.replicate (n - 1) interval, false⟩ := by
  intro n
  induction n with
  | zero => intro k h; omega
  | succ n ih =>
    intro k h
    unfold retryLoop
    rw [hfail k]
    by_cases hn : n = 0
    · subst hn
      simp
    · rw [if_neg Bool.false_ne_true, if_neg hn]
      dsimp only
      rw [ih (k + 1) (by omega)]
      have hrep : List.replicate n interval = interval :: List.replicate (n - 1) interval := by
        cases n with
        | zero => exact absurd rfl hn
        | succ m => simp [List.replicate_succ]
      simp only [Nat.add_sub_cancel]
      rw [hrep]

/-! ### Claim theorems -/

/-- C1: for every manager state and tool name, `select_tool_server` returns a
connection index when some connection declares the tool name as a capability
tag; it raises (`Except.error`, never a silently returned index) exactly when
no connection declares it; and an index it returns always addresses a
connection that declares the tag. -/
theorem select_tool_server_routes_iff_declared (m : ServerManager) (tool : String) :
    ((∃ c ∈ m.connections, declares c tool = true) →
        ∃ i : Nat, select_tool_server m tool = Except.ok ((i : Int)))
    ∧ ((∀ c ∈ m.connections, declares c tool = false) →
        ∃ msg, select_tool_server m tool = Except.error msg)
    ∧ (∀ z : Int, select_tool_server m tool = Except.ok z →
        ∃ c, m.connections[z.toNat]? = some c ∧ declares c tool = true) := by
  refine ⟨?_, ?_, ?_⟩
  · rintro ⟨c, hc, hd⟩
    obtain ⟨i, hi⟩ := lookupTag_isSome_of_declares m.connections tool c hc hd
    exact ⟨i, select_tool_server_of_lookup_some m tool i hi⟩
  · intro hall
    exact ⟨_, select_tool_server_of_lookup_none m tool ((lookupTag_eq_none_iff _ _).mpr hall)⟩
  · intro z hz
    cases hlk : lookupTag m.connections tool with
    | none =>
      rw [select_tool_server_of_lookup_none m tool hlk] at hz
      cases hz
    | some i =>
      rw [select_tool_server_of_lookup_some m tool i hlk] at hz
      cases hz
      obtain ⟨c, hc, hd⟩ := lookupTag_some_declares _ _ _ hlk
      exact ⟨c, by simpa using hc, hd⟩

/-- Witness for C1 on concrete inputs: the scenario manager routes "image"
to an index and has no server for "debug". -/
theorem select_tool_server_routes_iff_declared_witness :
    (∃ i : Nat, select_tool_server mgr3 "image" = Except.ok ((i : Int)))
    ∧ (∃ msg, select_tool_server mgr3 "debug" = Except.error msg) :=
  ⟨(select_tool_server_routes_iff_declared mgr3 "image").1
      ⟨⟨cfgTextImage, ConnState.Unconnected⟩, by decide, by decide⟩,
   (select_tool_server_routes_iff_declared mgr3 "debug").2.1 (by decide)⟩

/-- C2: on the three-server scenario (capabilities `{text}`, `{text,image}`,
`{code}` added in order), `selectForTool "image"` returns the second server's
index (1) and `selectForTool "debug"` fails with `NoServerError`; in general,
when a Connected connection declares the tag, selection returns the first
such connection in insertion order, and when none is Connected it falls back
to the first declaring connection regardless of state. -/
theorem selectForTool_scenario_and_tiebreak :
    (mgr3.selectForTool "image" = Except.ok 1
      ∧ mgr3.selectForTool "debug" = Except.error SelectError.NoServerError)
    ∧ (∀ (conns : List Connection) (tag : String),
        (∃ c ∈ conns, declares c tag = true ∧ c.state = ConnState.Connected) →
        ∃ i c, lookupTag conns tag = some i ∧ conns[i]? = some c ∧
          declares c tag = true ∧ c.state = ConnState.Connected ∧
          ∀ j, j < i → ∀ b, conns[j]? = some b →
            ¬(declares b tag = true ∧ b.state = ConnState.Connected))
    ∧ (∀ (conns : List Connection) (tag : String),
        (∀ c ∈ conns, ¬(declares c tag = true ∧ c.state = ConnState.Connected)) →
        (∃ c ∈ conns, declares c tag = true) →
        ∃ i c, lookupTag conns tag = some i ∧ conns[i]? = some c ∧
          declares c tag = true ∧
          ∀ j, j < i → ∀ b, conns[j]? = some b → declares b tag = false) := by
  refine ⟨⟨by rfl, by rfl⟩, ?_, ?_⟩
  · rintro conns tag ⟨c, hc, hd, hs⟩
    have hpc : (declares c tag && (c.state == ConnState.Connected)) = true := by
      simp [hd, hs]
    obtain ⟨i, hi⟩ :=
      findIdxOpt_isSome_of_mem
        (fun c => declares c tag && (c.state == ConnState.Connected)) conns c hc hpc
    obtain ⟨⟨a, ha, hpa⟩, hmin⟩ := findIdxOpt_eq_some_spec _ _ _ hi
    have hpa2 : declares a tag = true ∧ a.state = ConnState.Connected := by
      simpa using hpa
    refine ⟨i, a, ?_, ha, hpa2.1, hpa2.2, ?_⟩
    · unfold lookupTag
      rw [hi]
    · intro j hj b hb hcontra
      have := hmin j hj b hb
      simp [hcontra.1, hcontra.2] at this
  · rintro conns tag hnone ⟨c, hc, hd⟩
    have hfst : findIdxOpt (fun c => declares c tag && (c.state == ConnState.Connected)) conns = none := by
      rw [findIdxOpt_eq_none_iff]
      intro b hb
      have := hnone b hb
      cases hdb : declares b tag with
      | false => simp [hdb]
      | true =>
        cases hsb : (b.state == ConnState.Connected) with
        | false => simp [hdb, hsb]
        | true =>
          exact absurd ⟨hdb, by simpa using hsb⟩ this
    obtain ⟨i, hi⟩ := findIdxOpt_isSome_of_mem (fun c => declares c tag) conns c hc hd
    obtain ⟨⟨a, ha, hpa⟩, hmin⟩ := findIdxOpt_eq_some_spec _ _ _ hi
    refine ⟨i, a, ?_, ha, hpa, ?_⟩
    · unfold lookupTag
      rw [hfst, hi]
    · intro j hj b hb
      exact hmin j hj b hb

/-- Witness for C2's conditional parts on concrete inputs: in `mgrMixed` the
first Connected connection declaring "image" is selected, and in `mgr3`
(no connection Connected) the fallback picks the first declaring one. -/
theorem selectForTool_scenario_and_tiebreak_witness :
    (∃ i c, lookupTag mgrMixed.connections "image" = some i ∧
      mgrMixed.connections[i]? = some c ∧ declares c "image" = true ∧
      c.state = ConnState.Connected ∧
      ∀ j, j < i → ∀ b, mgrMixed.connections[j]? = some b →
        ¬(declares b "image" = true ∧ b.state = ConnState.Connected))
    ∧ (∃ i c, lookupTag mgr3.connections "image" = some i ∧
      mgr3.connections[i]? = some c ∧ declares c "image" = true ∧
      ∀ j, j < i → ∀ b, mgr3.connections[j]? = some b →
        declares b "image" = false) :=
  ⟨selectForTool_scenario_and_tiebreak.2.1 mgrMixed.connections "image"
      ⟨⟨⟨"delta", "", [], "http://delta:8080", "", [], ["image"], true⟩,
          ConnState.Connected⟩, by decide, by decide, by decide⟩,
   selectForTool_scenario_and_tiebreak.2.2 mgr3.connections "image"
      (by decide) ⟨⟨cfgTextImage, ConnState.Unconnected⟩, by decide, by decide⟩⟩

/-- C3: for every manager state and every valid config (fresh name, exactly
one of command/url populated), `addServer` succeeds; the count afterwards is
the count before plus one; the returned index (the old count) addressed no
connection before the call; and the index keeps addressing the same
connection across any further sequence of `addServer` calls (no removal
operation exists in the surface). -/
theorem addServer_success_spec (m : ServerManager) (c : ServerConfig)
    (hv : validConfig c = true) (hn : c.name ∉ m.names) :
    ∃ m2 : ServerManager, m.addServer c = Except.ok (m.getCount, m2) ∧
      m2.getCount = m.getCount + 1 ∧
      m.connections[m.getCount]? = none ∧
      (∀ i, i < m.getCount → m2.connections[i]? = m.connections[i]?) ∧
      m2.connections[m.getCount]? = some ⟨c, ConnState.Unconnected⟩ ∧
      ∀ ds : List ServerConfig,
        (applyAdds m2 ds).connections[m.getCount]? = some ⟨c, ConnState.Unconnected⟩ := by
  have hadd : m.addServer c =
      Except.ok (m.getCount, ⟨m.connections ++ [⟨c, ConnState.Unconnected⟩]⟩) := by
    unfold ServerManager.addServer
    rw [if_neg hn, if_neg (by simp [hv])]
  refine ⟨⟨m.connections ++ [⟨c, ConnState.Unconnected⟩]⟩, hadd, ?_, ?_, ?_, ?_, ?_⟩
  · simp [ServerManager.getCount]
  · exact List.getElem?_len_le (Nat.le_refl _)
  · intro i hi
    rw [List.getElem?_append, if_pos (show i < m.connections.length from hi)]
  · exact List.getElem?_concat_length _ _
  · intro ds
    have hlt : m.getCount <
        (⟨m.connections ++ [⟨c, ConnState.Unconnected⟩]⟩ : ServerManager).getCount := by
      simp [ServerManager.getCount]
    rw [applyAdds_stable_getElem ds _ _ hlt]
    exact List.getElem?_concat_length _ _

/-- Witness for C3: adding a fresh valid config to the empty manager. -/
theorem addServer_success_spec_witness :
    ∃ m2 : ServerManager,
      (⟨[]⟩ : ServerManager).addServer cfgFresh =
        Except.ok ((⟨[]⟩ : ServerManager).getCount, m2) ∧
      m2.getCount = (⟨[]⟩ : ServerManager).getCount + 1 ∧
      (⟨[]⟩ : ServerManager).connections[(⟨[]⟩ : ServerManager).getCount]? = none ∧
      (∀ i, i < (⟨[]⟩ : ServerManager).getCount →
        m2.connections[i]? = (⟨[]⟩ : ServerManager).connections[i]?) ∧
      m2.connections[(⟨[]⟩ : ServerManager).getCount]? =
        some ⟨cfgFresh, ConnState.Unconnected⟩ ∧
      ∀ ds : List ServerConfig,
        (applyAdds m2 ds).connections[(⟨[]⟩ : ServerManager).getCount]? =
          some ⟨cfgFresh, ConnState.Unconnected⟩ :=
  addServer_success_spec ⟨[]⟩ cfgFresh (by decide) (by decide)

/-- C4: for every manager state and every config whose name is already the
name of a connection in the manager, `addServer` fails with `DuplicateName`
and never succeeds; the connection set (hence the count) is unchanged by the
failed call; and every manager built by `addServer` calls from the empty
manager has pairwise distinct connection names. -/
theorem addServer_duplicate_spec (m : ServerManager) (c : ServerConfig)
    (h : c.name ∈ m.names) :
    (m.addServer c = Except.error AddError.DuplicateName ∧
      ∀ r, m.addServer c ≠ Except.ok r)
    ∧ (applyAdds m [c] = m ∧ (applyAdds m [c]).getCount = m.getCount)
    ∧ ∀ cfgs : List ServerConfig, ((applyAdds ⟨[]⟩ cfgs).names).Nodup := by
  have herr : m.addServer c = Except.error AddError.DuplicateName := by
    unfold ServerManager.addServer
    rw [if_pos h]
  have hset : applyAdds m [c] = m := by
    unfold applyAdds
    rw [herr]
    rfl
  refine ⟨⟨herr, ?_⟩, ⟨hset, by rw [hset]⟩, ?_⟩
  · intro r hr
    rw [herr] at hr
    cases hr
  · intro cfgs
    exact applyAdds_nodup cfgs ⟨[]⟩ (by simp [ServerManager.names])

/-- Witness for C4: re-adding the config of the only connection of a
one-connection manager. -/
theorem addServer_duplicate_spec_witness :
    ((⟨[⟨cfgFresh, ConnState.Unconnected⟩]⟩ : ServerManager).addServer cfgFresh =
        Except.error AddError.DuplicateName ∧
      ∀ r, (⟨[⟨cfgFresh, ConnState.Unconnected⟩]⟩ : ServerManager).addServer cfgFresh ≠
        Except.ok r)
    ∧ (applyAdds ⟨[⟨cfgFresh, ConnState.Unconnected⟩]⟩ [cfgFresh] =
        (⟨[⟨cfgFresh, ConnState.Unconnected⟩]⟩ : ServerManager) ∧
      (applyAdds ⟨[⟨cfgFresh, ConnState.Unconnected⟩]⟩ [cfgFresh]).getCount =
        (⟨[⟨cfgFresh, ConnState.Unconnected⟩]⟩ : ServerManager).getCount)
    ∧ ∀ cfgs : List ServerConfig, ((applyAdds ⟨[]⟩ cfgs).names).Nodup :=
  addServer_duplicate_spec ⟨[⟨cfgFresh, ConnState.Unconnected⟩]⟩ cfgFresh (by decide)

/-- C5: validation accepts a config exactly when exactly one of the
command field or the URL field is populated; on a config where both or
neither are populated, `addServer` never succeeds, and (when the name is not
also a duplicate) it fails with `InvalidConfig`. -/
theorem addServer_invalid_config_spec (m : ServerManager) (c : ServerConfig)
    (hbad : (c.command ≠ "" ∧ c.url ≠ "") ∨ (c.command = "" ∧ c.url = "")) :
    (∀ r, m.addServer c ≠ Except.ok r)
    ∧ (c.name ∉ m.names → m.addServer c = Except.error AddError.InvalidConfig)
    ∧ ∀ c2 : ServerConfig, validConfig c2 = true ↔
        ((c2.command ≠ "" ∧ c2.url = "") ∨ (c2.command = "" ∧ c2.url ≠ "")) := by
  have hval : validConfig c = false := by
    unfold validConfig
    rcases hbad with ⟨h1, h2⟩ | ⟨h1, h2⟩ <;> simp [h1, h2]
  refine ⟨?_, ?_, ?_⟩
  · intro r hr
    unfold ServerManager.addServer at hr
    by_cases hm : c.name ∈ m.names
    · rw [if_pos hm] at hr
      cases hr
    · rw [if_neg hm, if_pos hval] at hr
      cases hr
  · intro hn
    unfold ServerManager.addServer
    rw [if_neg hn, if_pos hval]
  · intro c2
    unfold validConfig
    by_cases h1 : c2.command = "" <;> by_cases h2 : c2.url = "" <;> simp [h1, h2]

/-- Witness for C5: the empty-field config and the both-fields config are
rejected with `InvalidConfig` by the empty manager. -/
theorem addServer_invalid_config_spec_witness :
    (⟨[]⟩ : ServerManager).addServer cfgNeither = Except.error AddError.InvalidConfig
    ∧ (⟨[]⟩ : ServerManager).addServer cfgBoth = Except.error AddError.InvalidConfig :=
  ⟨(addServer_invalid_config_spec ⟨[]⟩ cfgNeither (by decide)).2.1 (by decide),
   (addServer_invalid_config_spec ⟨[]⟩ cfgBoth (by decide)).2.1 (by decide)⟩

/-- C6: profile activation is atomic. If `activateProfile` fails (unknown
profile or config validation), the whole system state — in particular the
active profile name and the connection count — is exactly what it was before
the call, the previous connection set in force unchanged; if it succeeds, the
new connection set fully replaces the old one with the named profile's
configs, and the capability index (a pure function of the connection set) is
thereby rebuilt. -/
theorem activateProfile_atomic (s : ManagedSystem) (name : String) :
    (∀ e, (activateProfile s name).1 = Except.error e →
        (activateProfile s name).2 = s ∧
        getActiveProfile (activateProfile s name).2 = getActiveProfile s ∧
        (activateProfile s name).2.sm.getCount = s.sm.getCount ∧
        (activateProfile s name).2.sm.connections = s.sm.connections)
    ∧ (∀ u : Unit, (activateProfile s name).1 = Except.ok u →
        ∃ cfgs, s.pm.lookupProfile name = some cfgs ∧
          validConfigList cfgs = true ∧
          (activateProfile s name).2.sm.connections = mkConnections cfgs ∧
          getActiveProfile (activateProfile s name).2 = some name ∧
          ∀ tag, lookupTag (activateProfile s name).2.sm.connections tag =
            lookupTag (mkConnections cfgs) tag) := by
  cases hlp : s.pm.lookupProfile name with
  | none =>
    have hact : activateProfile s name = (Except.error ActivateError.UnknownProfile, s) := by
      unfold activateProfile
      rw [hlp]
    refine ⟨fun e he => by rw [hact]; exact ⟨rfl, rfl, rfl, rfl⟩, fun u hu => ?_⟩
    rw [hact] at hu
    cases hu
  | some cfgs =>
    by_cases hv : validConfigList cfgs = true
    · have hact : activateProfile s name =
          (Except.ok (), ⟨⟨s.pm.profiles, some name⟩, ⟨mkConnections cfgs⟩⟩) := by
        unfold activateProfile
        rw [hlp]
        dsimp only
        rw [if_pos hv]
      refine ⟨fun e he => ?_, fun u hu => ?_⟩
      · rw [hact] at he
        cases he
      · exact ⟨cfgs, by simp [hlp], hv, by rw [hact], by rw [hact]; rfl, fun tag => by rw [hact]⟩
    · have hact : activateProfile s name = (Except.error ActivateError.ConfigValidation, s) := by
        unfold activateProfile
        rw [hlp]
        dsimp only
        rw [if_neg hv]
      refine ⟨fun e he => by rw [hact]; exact ⟨rfl, rfl, rfl, rfl⟩, fun u hu => ?_⟩
      rw [hact] at hu
      cases hu

/-- Witness for C6 on concrete inputs: activating an unknown profile and a
validation-failing profile both leave `sysEx` untouched, and activating
"prod" replaces the connection set. -/
theorem activateProfile_atomic_witness :
    ((activateProfile sysEx "nope").2 = sysEx ∧
      getActiveProfile (activateProfile sysEx "nope").2 = getActiveProfile sysEx ∧
      (activateProfile sysEx "nope").2.sm.getCount = sysEx.sm.getCount ∧
      (activateProfile sysEx "nope").2.sm.connections = sysEx.sm.connections)
    ∧ ((activateProfile sysEx "broken").2 = sysEx ∧
      getActiveProfile (activateProfile sysEx "broken").2 = getActiveProfile sysEx ∧
      (activateProfile sysEx "broken").2.sm.getCount = sysEx.sm.getCount ∧
      (activateProfile sysEx "broken").2.sm.connections = sysEx.sm.connections)
    ∧ (∃ cfgs, sysEx.pm.lookupProfile "prod" = some cfgs ∧
        validConfigList cfgs = true ∧
        (activateProfile sysEx "prod").2.sm.connections = mkConnections cfgs ∧
        getActiveProfile (activateProfile sysEx "prod").2 = some "prod" ∧
        ∀ tag, lookupTag (activateProfile sysEx "prod").2.sm.connections tag =
          lookupTag (mkConnections cfgs) tag) :=
  ⟨(activateProfile_atomic sysEx "nope").1 ActivateError.UnknownProfile (by rfl),
   (activateProfile_atomic sysEx "broken").1 ActivateError.ConfigValidation (by rfl),
   (activateProfile_atomic sysEx "prod").2 () (by rfl)⟩

/-- C7: for every valid index and N ≥ 1, `reconnect` performs a bounded retry
loop: when the transport fails on every attempt, exactly N connect attempts
are made, the sleeps between consecutive attempts are all the constant
`interval` (N-1 of them, not exponential), the call fails with
`OutOfAttempts` and the connection ends in state `Failed`; in general at most
N attempts are ever made; and an invalid index fails with `InvalidIndex`
leaving the manager untouched. -/
theorem reconnect_bounded_retry_spec (m : ServerManager) (oracle : Nat → Bool)
    (idx N interval : Nat) (hidx : idx < m.getCount) (hN : 1 ≤ N) :
    ((∀ k, oracle k = false) →
        (m.reconnect oracle idx N interval).trace.attempts = N ∧
        (m.reconnect oracle idx N interval).trace.sleeps =
          List.replicate (N - 1) interval ∧
        (m.reconnect oracle idx N interval).result =
          Except.error ReconnectError.OutOfAttempts ∧
        (((m.reconnect oracle idx N interval).manager.connections[idx]?).map
          Connection.state) = some ConnState.Failed)
    ∧ (m.reconnect oracle idx N interval).trace.attempts ≤ N
    ∧ (∀ j, m.getCount ≤ j →
        (m.reconnect oracle j N interval).result =
          Except.error ReconnectError.InvalidIndex ∧
        (m.reconnect oracle j N interval).manager = m) := by
  have hconn : m.connections[idx]? = some (m.connections.get ⟨idx, hidx⟩) :=
    List.getElem?_eq_getElem hidx
  refine ⟨?_, ?_, ?_⟩
  · intro hfail
    have ht := retryLoop_allFail oracle interval hfail N 0 hN
    unfold ServerManager.reconnect
    rw [hconn]
    dsimp only
    rw [ht]
    rw [if_neg Bool.false_ne_true]
    refine ⟨rfl, rfl, rfl, ?_⟩
    unfold ServerManager.setState
    dsimp only
    rw [setStateList_getElem_self, setStateList_getElem_self, hconn]
    rfl
  · unfold ServerManager.reconnect
    rw [hconn]
    dsimp only
    by_cases hs : (retryLoop oracle interval N 0).success = true
    · rw [if_pos hs]
      exact retryLoop_attempts_le oracle interval N 0
    · rw [if_neg hs]
      exact retryLoop_attempts_le oracle interval N 0
  · intro j hj
    have hnone : m.connections[j]? = none := List.getElem?_len_le hj
    unfold ServerManager.reconnect
    rw [hnone]
    exact ⟨rfl, rfl⟩

/-- Witness for C7: reconnecting connection 0 of a one-connection manager
with an always-failing transport, 3 attempts and a 100 ms interval; and the
invalid index 5. -/
theorem reconnect_bounded_retry_spec_witness :
    ((mgr1.reconnect (fun _ => false) 0 3 100).trace.attempts = 3 ∧
      (mgr1.reconnect (fun _ => false) 0 3 100).trace.sleeps =
        List.replicate (3 - 1) 100 ∧
      (mgr1.reconnect (fun _ => false) 0 3 100).result =
        Except.error ReconnectError.OutOfAttempts ∧
      (((mgr1.reconnect (fun _ => false) 0 3 100).manager.connections[0]?).map
        Connection.state) = some ConnState.Failed)
    ∧ ((mgr1.reconnect (fun _ => false) 5 3 100).result =
        Except.error ReconnectError.InvalidIndex ∧
      (mgr1.reconnect (fun _ => false) 5 3 100).manager = mgr1) :=
  ⟨(reconnect_bounded_retry_spec mgr1 (fun _ => false) 0 3 100 (by decide)
      (by decide)).1 (fun _ => rfl),
   (reconnect_bounded_retry_spec mgr1 (fun _ => false) 0 3 100 (by decide)
      (by decide)).2.2 5 (by decide)⟩

/-- C8: selection is deterministic and side-effect-free: for a fixed manager
state, two consecutive `select_tool_server` calls with no intervening state
change return the same result, and a selection call leaves the manager — in
particular every connection's state — unchanged (no implicit connect or
reconnect is triggered). -/
theorem selection_deterministic_and_pure (m : ServerManager) (tool : String) :
    (selectForToolRun m tool).1 = (selectForToolRun (selectForToolRun m tool).2 tool).1
    ∧ (selectForToolRun m tool).2 = m
    ∧ (∀ i : Nat, (((selectForToolRun m tool).2.connections[i]?).map Connection.state) =
        ((m.connections[i]?).map Connection.state)) :=
  ⟨rfl, rfl, fun _ => rfl⟩

/-- C9: `disconnectAll` never fails — it is a total function with no error
outcome — and regardless of the per-connection teardown errors (which are
only collected as log lines) every connection ends in state `Disconnected`,
with the connection count and each connection's config preserved. -/
theorem disconnectAll_unconditional (m : ServerManager) (teardownErr : Nat → Option String) :
    ((disconnectAll m teardownErr).1.getCount = m.getCount)
    ∧ (∀ c ∈ (disconnectAll m teardownErr).1.connections,
        c.state = ConnState.Disconnected)
    ∧ (∀ i : Nat, (((disconnectAll m teardownErr).1.connections[i]?).map Connection.config) =
        ((m.connections[i]?).map Connection.config)) := by
  refine ⟨by simp [disconnectAll, ServerManager.getCount], ?_, ?_⟩
  · intro c hc
    simp only [disconnectAll, List.mem_map] at hc
    obtain ⟨a, _, rfl⟩ := hc
    rfl
  · intro i
    cases hc : m.connections[i]? with
    | none => simp [disconnectAll, List.getElem?_map, hc]
    | some c => simp [disconnectAll, List.getElem?_map, hc]

/-- C10: `execute_tool` never propagates an exception: whenever the
underlying `call_tool` raises, or the parsing of its result raises (in the
source the successful `call_tool` result is a dict, on which `json.loads`
raises `TypeError`), the function returns a dict whose "error" key holds the
exception message; it is a total function into dicts, so on no input does it
raise. -/
theorem execute_tool_never_raises :
    (∀ (loads : PyDict → Except String PyDict) (e : String),
        execute_tool (Except.error e) loads = [("error", PyValue.str e)])
    ∧ (∀ (loads : PyDict → Except String PyDict) (d : PyDict) (e : String),
        loads d = Except.error e →
        execute_tool (Except.ok d) loads = [("error", PyValue.str e)])
    ∧ (∀ d : PyDict, execute_tool (Except.ok d) json_loads_on_dict =
        [("error",
          PyValue.str "the JSON object must be str, bytes or bytearray, not dict")]) := by
  refine ⟨fun loads e => rfl, fun loads d e h => ?_, fun d => rfl⟩
  unfold execute_tool
  dsimp only
  rw [h]

/-- Witness for C10: a failing underlying call and a successful call whose
dict result makes the parse step raise. -/
theorem execute_tool_never_raises_witness :
    execute_tool (Except.ok ([] : PyDict)) json_loads_on_dict =
      [("error",
        PyValue.str "the JSON object must be str, bytes or bytearray, not dict")] :=
  execute_tool_never_raises.2.1 json_loads_on_dict [] _ rfl

end SupaMCP
